import Mathlib

/-!
Verification development for the activity-summarization pipeline:
the classifier (`app-tracker`), the event ingestor (`event-ingestion.ts`)
and the summarizer (`summarizer`). Definitions are shallow embeddings of
the TypeScript sources; JavaScript string truthiness and the concrete
regular expressions of the sources are modelled explicitly.
-/

namespace Focusd

/-! ## JavaScript string helpers -/

/-- Truthiness of an optional JS string: `undefined` and `""` are falsy. -/
def jsTruthy : Option String → Bool
  | none => false
  | some s => s ≠ ""

/-- The JS idiom `o || d` on an optional string: falsy values fall back to `d`. -/
def jsOrDefault (o : Option String) (d : String) : String :=
  match o with
  | none => d
  | some s => if s = "" then d else s

/-- ASCII word character, the JS regex class `\w`. -/
def isWordChar (c : Char) : Bool :=
  c.isAlpha || c.isDigit || c = '_'

/-- Whitespace as matched by the JS regex class `\s` (ASCII range). -/
def isSpaceChar (c : Char) : Bool :=
  c = ' ' || c = '\t' || c = '\n' || c = '\r' || c = '\x0b' || c = '\x0c'

/-- Case-insensitive prefix test: does `lit` (given lowercase) start `cs`? -/
def ciPrefix (lit : List Char) (cs : List Char) : Bool :=
  match lit, cs with
  | [], _ => true
  | _ :: _, [] => false
  | l :: ls, c :: rest => c.toLower = l && ciPrefix ls rest

/-! ## Classifier (`app-tracker`): `inferAction` -/

/-- Match a sequence of literals separated by `\s*` at the head of `cs`
(the alternatives of the action regexes, e.g. `editing\s*code`). -/
def seqAt : List (List Char) → List Char → Bool
  | [], _ => true
  | [l], cs => l.isPrefixOf cs
  | l :: l2 :: ls, cs =>
    l.isPrefixOf cs && seqAt (l2 :: ls) ((cs.drop l.length).dropWhile isSpaceChar)

/-- Search `cs` left to right for a position where `alt` matches. -/
def seqSearch (alt : List (List Char)) : List Char → Bool
  | [] => seqAt alt []
  | c :: cs => seqAt alt (c :: cs) || seqSearch alt cs

/-- The JS `pattern.test(s)` for an alternation of `\s*`-separated literal
sequences, applied to an already lowercased string. -/
def regexTestAlts (alts : List (List String)) (s : String) : Bool :=
  alts.any (fun alt => seqSearch (alt.map String.data) s.data)

/-- `inferAction` from `app-tracker`: keyword-driven action tag over the
concatenated, lowercased scene texts; first matching rule wins. -/
def inferAction (sceneTexts : List String) : String :=
  if sceneTexts.isEmpty then "unknown"
  else
    let combined := (String.intercalate " " sceneTexts).toLower
    if regexTestAlts [["coding"], ["editing", "code"], ["writing", "code"],
        ["programming"], ["debugging"]] combined then "coding"
    else if regexTestAlts [["browsing"], ["searching"], ["navigating"], ["web"]] combined then
      "browsing"
    else if regexTestAlts [["chatting"], ["messaging"], ["replying"], ["conversation"]] combined then
      "chatting"
    else if regexTestAlts [["reading"], ["reviewing"], ["viewing", "doc"]] combined then
      "reading"
    else if regexTestAlts [["meeting"], ["call"], ["video", "call"], ["conference"]] combined then
      "meeting"
    else if regexTestAlts [["writing"], ["composing"], ["drafting"], ["typing", "doc"]] combined then
      "writing"
    else if regexTestAlts [["designing"], ["prototyping"], ["wireframing"]] combined then
      "designing"
    else if regexTestAlts [["watching"], ["streaming"], ["playing"]] combined then
      "watching"
    else if regexTestAlts [["email"], ["inbox"], ["reply"]] combined then
      "emailing"
    else "working"

/-! ## Classifier: `inferProject` and its two regular expressions -/

/-- Character class `[\w. _-]` of the IDE-title-bar capture group. -/
def titleCap (c : Char) : Bool :=
  isWordChar c || c = '.' || c = ' ' || c = '_' || c = '-'

/-- The dash alternatives `[-–—]` of the title regex. -/
def isTitleDash (c : Char) : Bool :=
  c = '-' || c = '–' || c = '—'

/-- Editor-name alternation of the title regex (lowercased literals). -/
def editorNames : List String :=
  ["vs code", "visual studio", "cursor", "intellij", "webstorm", "pycharm",
   "goland", "xcode", "sublime"]

/-- Tail of the title regex after the capture: `\s*[-–—]\s*(?:VS Code|...)`,
matched case-insensitively. Both `\s*` are deterministic here because a dash
and the editor names start with non-space characters. -/
def matchTitleTail (cs : List Char) : Bool :=
  match cs.dropWhile isSpaceChar with
  | [] => false
  | d :: rest =>
    isTitleDash d &&
      editorNames.any (fun ed => ciPrefix ed.data (rest.dropWhile isSpaceChar))

/-- Backtracking over the greedy `{2,}` quantifier of the title capture:
try capture extensions of length `k, k-1, ..., 2` and return the first
(i.e. longest) one whose remainder matches the title tail. -/
def tryTitleLens (c0 : Char) (run after : List Char) : Nat → Option String
  | 0 => none
  | 1 => none
  | k + 2 =>
    if matchTitleTail (run.drop (k + 2) ++ after) then
      some (String.mk (c0 :: run.take (k + 2)))
    else tryTitleLens c0 run after (k + 1)

/-- Attempt the title regex at the current position; on success return the
(untrimmed) capture group, with the greedy-longest capture chosen first. -/
def matchTitleAt : List Char → Option String
  | [] => none
  | c0 :: rest =>
    if isWordChar c0 then
      let run := rest.takeWhile titleCap
      tryTitleLens c0 run (rest.drop run.length) run.length
    else none

/-- Leftmost match of the IDE-title-bar regex
`([\w][\w. _-]{2,})\s*[-–—]\s*(?:VS Code|Visual Studio|...)/i`. -/
def findTitle : List Char → Option String
  | [] => none
  | c :: cs =>
    match matchTitleAt (c :: cs) with
    | some s => some s
    | none => findTitle cs

/-- Character class `[\w._-]` of the path capture group. -/
def pathCap (c : Char) : Bool :=
  isWordChar c || c = '.' || c = '_' || c = '-'

/-- Path separators `[\\/]`. -/
def isSlash (c : Char) : Bool :=
  c = '/' || c = '\\'

/-- Directory alternation `(?:src|lib|app|packages?|cmd)` (lowercased). -/
def dirNames : List String :=
  ["src", "lib", "app", "packages", "package", "cmd"]

/-- Tail of the path regex after the capture: a slash, one of the directory
names, then another slash, case-insensitively. -/
def matchPathTail (cs : List Char) : Bool :=
  match cs with
  | [] => false
  | c :: rest =>
    isSlash c &&
      dirNames.any (fun d =>
        ciPrefix d.data rest &&
          (match rest.drop d.length with
           | c2 :: _ => isSlash c2
           | [] => false))

/-- Backtracking over the greedy `{2,}` quantifier of the path capture. -/
def tryPathLens (c0 : Char) (run after : List Char) : Nat → Option String
  | 0 => none
  | 1 => none
  | k + 2 =>
    if matchPathTail (run.drop (k + 2) ++ after) then
      some (String.mk (c0 :: run.take (k + 2)))
    else tryPathLens c0 run after (k + 1)

/-- Attempt the path regex at the current position (which must be a slash). -/
def matchPathAt : List Char → Option String
  | [] => none
  | s :: rest =>
    if isSlash s then
      match rest with
      | [] => none
      | c0 :: rest2 =>
        if isWordChar c0 then
          let run := rest2.takeWhile pathCap
          tryPathLens c0 run (rest2.drop run.length) run.length
        else none
    else none

/-- Leftmost match of the path regex
`[\\/]([\w][\w._-]{2,})[\\/](?:src|lib|app|packages?|cmd)[\\/]/i`. -/
def findPath : List Char → Option String
  | [] => none
  | c :: cs =>
    match matchPathAt (c :: cs) with
    | some s => some s
    | none => findPath cs

/-- TLD-style suffixes rejected by the validity filter. -/
def projectTLDs : List String :=
  [".com", ".org", ".io", ".dev", ".net", ".co", ".app", ".xyz", ".ai",
   ".me", ".tv", ".gg"]

/-- The `REJECTED_NAMES` set of `app-tracker`. -/
def rejectedNames : List String :=
  ["src", "lib", "dist", "build", "node_modules", "public", "out",
   "components", "pages", "utils", "hooks", "types", "assets",
   "styles", "tests", "test", "__tests__", "spec", "bin", "tmp",
   "desktop", "downloads", "documents", "applications", "users",
   "home", "root", "var", "etc", "usr", "opt", "volumes",
   "untitled", "workspace", "project", "folder", "file", "new"]

/-- The `GENERIC_WORDS` set of `app-tracker`. -/
def genericWords : List String :=
  ["tabs", "and", "the", "for", "with", "from", "input", "output",
   "start", "stop", "play", "code", "data", "home", "main", "index",
   "origin", "master", "objects", "functions", "channels", "progress",
   "space", "search", "system", "network", "process", "processor",
   "movies", "ctrl", "experiments", "temporal", "latency", "humanoid",
   "conversations", "debugging", "coding", "browsing", "reading",
   "meeting", "designing", "learning", "working", "watching"]

/-- The regex `^[a-z]+$`. -/
def isLowerAlphaStr (s : String) : Bool :=
  !s.data.isEmpty && s.data.all (fun c => 'a' ≤ c && c ≤ 'z')

/-- The validity filter `isValidProject` of `app-tracker`. -/
def isValidProject (name : String) : Bool :=
  let lower := name.toLower
  if lower.length < 3 || lower.length > 50 then false
  else if projectTLDs.any (fun t => lower.endsWith t) then false
  else if ["www.", "http.", "ftp."].any (fun p => lower.startsWith p) then false
  else if rejectedNames.contains lower then false
  else if isLowerAlphaStr lower && genericWords.contains lower then false
  else true

/-- `inferProject` of `app-tracker`: per text, try the IDE title-bar regex
(trimmed capture, validity-checked), then the path regex, then move on. -/
def inferProject (sceneTexts : List String) : Option String :=
  match sceneTexts with
  | [] => none
  | t :: rest =>
    match findTitle t.data with
    | some raw =>
      let name := raw.trim
      if isValidProject name then some name
      else
        match findPath t.data with
        | some p => if isValidProject p then some p else inferProject rest
        | none => inferProject rest
    | none =>
      match findPath t.data with
      | some p => if isValidProject p then some p else inferProject rest
      | none => inferProject rest

/-! ## Event ingestor (`event-ingestion.ts`) -/

/-- Event channel discriminator of `RawEvent`. -/
inductive Channel where
  | scene_index
  | visual_index
  | transcript
  | spoken_index
  | alert
  deriving DecidableEq, Repr, Inhabited

/-- A raw ingested event as built by `ingestEvent`. -/
structure RawEvent where
  sessionId : String
  timestamp : Int
  channel : Channel
  appName : Option String
  appCategory : Option String
  summaryText : Option String
  deriving DecidableEq, Repr, Inhabited

/-- A run of events sharing an inferred app, as built by `groupByApp`. -/
structure EventGroup where
  appName : Option String
  appCategory : Option String
  events : List RawEvent
  deriving DecidableEq, Repr, Inhabited

/-- The `hasAppInfo` test of `groupByApp`: scene/visual/alert events carry
app attribution. -/
def hasAppInfo (e : RawEvent) : Bool :=
  decide (e.channel = .scene_index ∨ e.channel = .visual_index ∨ e.channel = .alert)

/-- The run-boundary test of `groupByApp`:
`hasAppInfo && event.appName && (!current || event.appName !== current.appName)`. -/
def isBoundary (current : Option EventGroup) (e : RawEvent) : Bool :=
  hasAppInfo e && jsTruthy e.appName &&
    (match current with
     | none => true
     | some c => decide (e.appName ≠ c.appName))

/-- One iteration of the `groupByApp` loop over `(groups, current)`. -/
def groupStep (st : List EventGroup × Option EventGroup) (e : RawEvent) :
    List EventGroup × Option EventGroup :=
  if isBoundary st.2 e then
    (st.1 ++ st.2.toList, some { appName := e.appName, appCategory := e.appCategory, events := [e] })
  else
    match st.2 with
    | some c => (st.1, some { c with events := c.events ++ [e] })
    | none => (st.1, some { appName := e.appName, appCategory := e.appCategory, events := [e] })

/-- `groupByApp` of `event-ingestion.ts`: partition the buffered events, in
order, into runs; the trailing open run is appended at the end. -/
def groupByApp (events : List RawEvent) : List EventGroup :=
  let st := events.foldl groupStep ([], none)
  st.1 ++ st.2.toList

/-- A persisted activity segment (row shape of `insertActivitySegment`). -/
structure ActivitySegment where
  id : Option Nat := none
  sessionId : String
  startTime : Int
  endTime : Int
  primaryApp : Option String
  appCategory : Option String
  action : String
  project : Option String
  context : Option String
  transcriptSnippet : Option String
  eventCount : Nat
  isIdle : Bool
  deriving DecidableEq, Repr, Inhabited

/-- Scene texts of a run: scene/visual events with truthy `summaryText`. -/
def sceneTextsOf (evs : List RawEvent) : List String :=
  (evs.filter (fun e =>
      decide (e.channel = .scene_index ∨ e.channel = .visual_index) &&
        jsTruthy e.summaryText)).map
    (fun e => e.summaryText.getD "")

/-- Transcript texts of a run: transcript events with truthy `summaryText`. -/
def transcriptTextsOf (evs : List RawEvent) : List String :=
  (evs.filter (fun e => decide (e.channel = .transcript) && jsTruthy e.summaryText)).map
    (fun e => e.summaryText.getD "")

/-- The segment built by `flushToSegments` for one event group. -/
def mkSegment (sessionId : String) (idle : Bool) (g : EventGroup) : ActivitySegment :=
  let sceneTexts := sceneTextsOf g.events
  let transcriptParts := transcriptTextsOf g.events
  { sessionId := sessionId
    startTime := ((g.events.head?.getD default).timestamp)
    endTime := ((g.events.getLast?.getD default).timestamp)
    primaryApp := if jsTruthy g.appName then g.appName else none
    appCategory := if jsTruthy g.appCategory then g.appCategory else none
    action := inferAction sceneTexts
    project := inferProject sceneTexts
    context := sceneTexts.head?.map (fun t => t.take 200)
    transcriptSnippet :=
      (fun s => if s = "" then none else some s)
        ((String.intercalate " " transcriptParts).take 300)
    eventCount := g.events.length
    isIdle := idle }

/-- Body of `flushToSegments` after the empty-buffer/active-session guard:
group the drained buffer and emit one segment per non-empty group, paired
here with the group's contributing events. -/
def flushToSegments (sessionId : String) (idle : Bool) (events : List RawEvent) :
    List (ActivitySegment × List RawEvent) :=
  (groupByApp events).filterMap fun g =>
    if g.events.isEmpty then none
    else some (mkSegment sessionId idle g, g.events)

/-! ## Summarizer (`summarizer`): shared helpers -/

/-- `stripCodeFences` of the summarizer: trim, drop a leading
` ```(json)?\s*\n? ` fence, drop a trailing ` \n?``` ` fence, trim again. -/
def stripCodeFences (raw : String) : String :=
  let s := raw.trim
  if s.startsWith "```" then
    let s1 := s.drop 3
    let s2 := if s1.startsWith "json" then s1.drop 4 else s1
    let s3 : String := ⟨s2.data.dropWhile isSpaceChar⟩
    let s4 :=
      if s3.endsWith "```" then
        let t := s3.dropRight 3
        if t.endsWith "\n" then t.dropRight 1 else t
      else s3
    s4.trim
  else s.trim

/-- `fmtDuration` of the summarizer. -/
def fmtDuration (secs : Int) : String :=
  if secs < 60 then s!"{secs}s"
  else
    let m := secs / 60
    let s := secs % 60
    if s > 0 then s!"{m}m {s}s" else s!"{m}m"

/-- A JS-object-like accumulator entry update:
`obj[k] = (obj[k] || 0) + v`, preserving insertion order of keys. -/
def bumpEntry : List (String × Int) → String → Int → List (String × Int)
  | [], k, v => [(k, v)]
  | (k', v') :: rest, k, v =>
    if k' = k then (k', v' + v) :: rest else (k', v') :: bumpEntry rest k v

/-- Read a key out of a JS-object-like association list, defaulting to 0. -/
def lookupD (m : List (String × Int)) (k : String) : Int :=
  match m.find? (fun p => p.1 = k) with
  | some p => p.2
  | none => 0

/-- A stored micro summary row. -/
structure MicroSummary where
  sessionId : String
  startTime : Int
  endTime : Int
  summary : String
  appBreakdown : List (String × Int)
  primaryActivity : Option String
  productivityLabel : String
  project : Option String
  segmentIds : List Nat
  deriving DecidableEq, Repr, Inhabited

/-- A stored session summary row. -/
structure SessionSummary where
  sessionId : String
  date : String
  startTime : Int
  endTime : Int
  summary : String
  keyActivities : List String
  projects : List (String × Int)
  appStats : List (String × Int)
  productivityLabel : String
  deriving DecidableEq, Repr, Inhabited

/-- A drill-down section of a daily summary. -/
structure DrillDownSection where
  title : String
  summary : String
  startTime : Int
  endTime : Int
  deriving DecidableEq, Repr, Inhabited

/-- A stored (upserted) daily summary row. -/
structure DailySummary where
  date : String
  headline : String
  summary : String
  highlights : List String
  improvements : List String
  drillDownSections : List DrillDownSection
  totalTrackedSecs : Int
  totalIdleSecs : Int
  totalProductiveSecs : Int
  totalDistractedSecs : Int
  topApps : List (String × Int)
  topProjects : List (String × Int)
  deriving DecidableEq, Repr, Inhabited

/-- Fields the summarizer reads off the model's micro-summary JSON. Decoding
raw model text into this shape (`JSON.parse` after `stripCodeFences`) is an
external builtin and is modelled as an abstract `decode` parameter. -/
structure ParsedMicro where
  summary : Option String
  primary_activity : Option String
  productivity_label : Option String
  project : Option String
  deriving DecidableEq, Repr, Inhabited

/-- Fields read off the model's session-summary JSON. -/
structure ParsedSession where
  summary : Option String
  productivity_label : Option String
  deriving DecidableEq, Repr, Inhabited

/-- An hour-range section as found in the model's daily-summary JSON. -/
structure ParsedSection where
  title : String
  summary : String
  start_hour : Option Int
  end_hour : Option Int
  deriving DecidableEq, Repr, Inhabited

/-- Fields read off the model's daily-summary JSON. -/
structure ParsedDaily where
  headline : Option String
  summary : Option String
  highlights : Option (List String)
  improvements : Option (List String)
  sections : Option (List ParsedSection)
  deriving DecidableEq, Repr, Inhabited

/-- The JS idiom `n || d` on an optional number (`0` is falsy). -/
def jsOrInt (o : Option Int) (d : Int) : Int :=
  match o with
  | none => d
  | some v => if v = 0 then d else v

/-- App attribution of a segment in prompts and breakdowns:
`s.primaryApp || 'Unknown'`. -/
def jsAppOf (s : ActivitySegment) : String :=
  jsOrDefault s.primaryApp "Unknown"

/-- Normalization of the model's `project` string:
truthy and not `"null"` (case-insensitively) yields the trimmed name. -/
def normalizeProject (o : Option String) : Option String :=
  match o with
  | none => none
  | some s => if s ≠ "" && s.toLower ≠ "null" then some s.trim else none

/-- The deterministic per-app duration breakdown of `generateMicroSummary`:
sum `endTime - startTime` per `primaryApp || 'Unknown'`. -/
def microAppBreakdown (segments : List ActivitySegment) : List (String × Int) :=
  segments.foldl (fun m s => bumpEntry m (jsAppOf s) (s.endTime - s.startTime)) []

/-- TLD stripping of `generateSessionSummary`:
`app.replace(/\.com$|\.org$|\.io$|\.dev$/i, '')`. -/
def normalizeApp (s : String) : String :=
  let l := s.toLower
  if l.endsWith ".com" then s.dropRight 4
  else if l.endsWith ".org" then s.dropRight 4
  else if l.endsWith ".io" then s.dropRight 3
  else if l.endsWith ".dev" then s.dropRight 4
  else s

/-- The deterministic `computedAppStats` of `generateSessionSummary`: sum the
micros' breakdown entries per TLD-normalized app name. -/
def sessionAppStats (micros : List MicroSummary) : List (String × Int) :=
  micros.foldl
    (fun m mi =>
      mi.appBreakdown.foldl (fun m2 p => bumpEntry m2 (normalizeApp p.1) p.2) m)
    []

/-- The deterministic `computedProjects` of `generateSessionSummary`: sum
segment durations per trimmed truthy `project` over the segments in range. -/
def sessionProjects (segs : List ActivitySegment) : List (String × Int) :=
  segs.foldl
    (fun m s =>
      if jsTruthy s.project then
        bumpEntry m ((s.project.getD "").trim) (s.endTime - s.startTime)
      else m)
    []

/-- The `keyActivities` strings of `generateSessionSummary`. -/
def sessionKeyActivities (micros : List MicroSummary) : List String :=
  micros.map (fun m =>
    (jsOrDefault m.primaryActivity "activity") ++ " (" ++
      fmtDuration (m.endTime - m.startTime) ++ ")")

/-! ## Summarizer operations

Each operation is modelled as a function of the query results it fetched
from the persistent store (the store itself lives outside `src/`) and of
the completion-API outcome. `resp = Except.error _` models the completion
call throwing; `Except.ok content` carries `response.choices[0].message.content`
(`none` models a null content). `decode` models `JSON.parse` on the
fence-stripped content. The outcome records every externally visible
effect of one invocation: returned value, number of completion-API calls
issued, rows written, backfills, and the new watermark. -/

/-- Externally visible outcome of one `generateMicroSummary` invocation. -/
structure MicroOutcome where
  result : Option MicroSummary
  apiCalls : Nat
  insertedMicros : List MicroSummary
  backfill : Option (List Nat × String)
  lastMicroTimeAfter : Int
  deriving DecidableEq, Repr, Inhabited

/-- The segment-id list persisted with a micro summary:
`segments.map(s => s.id!).filter(Boolean)`. -/
def microSegmentIds (segments : List ActivitySegment) : List Nat :=
  (segments.filterMap (fun s => s.id)).filter (fun i => i ≠ 0)

/-- The `MicroSummary` record built in `generateMicroSummary`'s success
branch from the eligible segments and the decoded model output. -/
def buildMicro (sessionId : String) (segments : List ActivitySegment)
    (parsed : ParsedMicro) : MicroSummary :=
  { sessionId := sessionId
    startTime := (segments.head?.getD default).startTime
    endTime := (segments.getLast?.getD default).endTime
    summary := jsOrDefault parsed.summary "No summary available"
    appBreakdown := microAppBreakdown segments
    primaryActivity := parsed.primary_activity
    productivityLabel := jsOrDefault parsed.productivity_label "neutral"
    project := normalizeProject parsed.project
    segmentIds := microSegmentIds segments }

/-- `generateMicroSummary`: guards (LLM, active session, eligible segments),
one completion call, deterministic breakdown, JS-truthy prose defaults,
project backfill, insert, watermark advance; any throw from the call or the
decode is caught and yields `none` with no writes. -/
def generateMicroSummary (llm : Bool) (sid : Option String)
    (lastMicroTime now : Int) (segments : List ActivitySegment)
    (resp : Except String (Option String))
    (decode : String → Except String ParsedMicro) : MicroOutcome :=
  if !llm then ⟨none, 0, [], none, lastMicroTime⟩
  else
    match sid with
    | none => ⟨none, 0, [], none, lastMicroTime⟩
    | some sessionId =>
      if segments.isEmpty then ⟨none, 0, [], none, lastMicroTime⟩
      else
        match resp with
        | .error _ => ⟨none, 1, [], none, lastMicroTime⟩
        | .ok content =>
          match decode (stripCodeFences (jsOrDefault content "\x7b\x7d")) with
          | .error _ => ⟨none, 1, [], none, lastMicroTime⟩
          | .ok parsed =>
            let micro := buildMicro sessionId segments parsed
            ⟨some micro, 1, [micro],
              (normalizeProject parsed.project).map
                (fun p => (microSegmentIds segments, p)), now⟩

/-- Externally visible outcome of one `generateSessionSummary` invocation. -/
structure SessionOutcome where
  result : Option SessionSummary
  apiCalls : Nat
  insertedSessions : List SessionSummary
  lastSessionSummaryTimeAfter : Int
  deriving DecidableEq, Repr, Inhabited

/-- The `SessionSummary` record built in `generateSessionSummary`'s success
branch. -/
def buildSession (sessionId date : String) (micros : List MicroSummary)
    (segsInRange : List ActivitySegment) (parsed : ParsedSession) : SessionSummary :=
  { sessionId := sessionId
    date := date
    startTime := (micros.head?.getD default).startTime
    endTime := (micros.getLast?.getD default).endTime
    summary := jsOrDefault parsed.summary "No summary available"
    keyActivities := sessionKeyActivities micros
    projects := sessionProjects segsInRange
    appStats := sessionAppStats micros
    productivityLabel := jsOrDefault parsed.productivity_label "neutral" }

/-- `generateSessionSummary`: guards, one completion call, deterministic
`keyActivities`/`appStats`/`projects`, insert, watermark advance; throws
from the call or decode are caught and yield `none` with no writes.
`segsInRange` is the store's answer to
`getActivitySegments(micros[0].startTime, micros[last].endTime)`. -/
def generateSessionSummary (llm : Bool) (sid : Option String)
    (lastSessionSummaryTime now : Int) (date : String)
    (micros : List MicroSummary) (segsInRange : List ActivitySegment)
    (resp : Except String (Option String))
    (decode : String → Except String ParsedSession) : SessionOutcome :=
  if !llm then ⟨none, 0, [], lastSessionSummaryTime⟩
  else
    match sid with
    | none => ⟨none, 0, [], lastSessionSummaryTime⟩
    | some sessionId =>
      if micros.isEmpty then ⟨none, 0, [], lastSessionSummaryTime⟩
      else
        match resp with
        | .error _ => ⟨none, 1, [], lastSessionSummaryTime⟩
        | .ok content =>
          match decode (stripCodeFences (jsOrDefault content "\x7b\x7d")) with
          | .error _ => ⟨none, 1, [], lastSessionSummaryTime⟩
          | .ok parsed =>
            let session := buildSession sessionId date micros segsInRange parsed
            ⟨some session, 1, [session], now⟩

/-- Deterministic per-day aggregates pulled from the store by
`generateDailySummary`. -/
structure DailyAggregates where
  appUsage : List (String × Int)
  projects : List (String × Int)
  totalTracked : Int
  totalIdle : Int
  productive : Int
  distracted : Int
  deriving DecidableEq, Repr, Inhabited

/-- Externally visible outcome of one `generateDailySummary` invocation. -/
structure DailyOutcome where
  result : Option DailySummary
  apiCalls : Nat
  upserted : Option DailySummary
  deriving DecidableEq, Repr, Inhabited

/-- The `DailySummary` record built in `generateDailySummary`'s success
branch: prose fields from the decoded model output (with JS-truthy
defaults and hour-range conversion), numeric totals from the deterministic
aggregates. -/
def buildDaily (date : String) (aggs : DailyAggregates) (dayStart : Int)
    (parsed : ParsedDaily) : DailySummary :=
  { date := date
    headline := jsOrDefault parsed.headline "Daily Summary"
    summary := jsOrDefault parsed.summary "No summary available"
    highlights := parsed.highlights.getD []
    improvements := parsed.improvements.getD []
    drillDownSections :=
      (parsed.sections.getD []).map (fun s =>
        { title := s.title
          summary := s.summary
          startTime := dayStart + (jsOrInt s.start_hour 0) * 3600
          endTime := dayStart + (jsOrInt s.end_hour 24) * 3600 })
    totalTrackedSecs := aggs.totalTracked
    totalIdleSecs := aggs.totalIdle
    totalProductiveSecs := aggs.productive
    totalDistractedSecs := aggs.distracted
    topApps := aggs.appUsage
    topProjects := aggs.projects }

/-- `generateDailySummary date`: sessions preferred, micros as fallback
(the store is queried for micros only when there are no sessions), no-op
when both are empty; one completion call; numeric day totals come from the
deterministic aggregates; throws are caught and yield `none` and no upsert. -/
def generateDailySummary (llm : Bool) (date : String)
    (sessions : List SessionSummary) (microsForDay : List MicroSummary)
    (aggs : DailyAggregates) (dayStart : Int)
    (resp : Except String (Option String))
    (decode : String → Except String ParsedDaily) : DailyOutcome :=
  if !llm then ⟨none, 0, none⟩
  else
    let micros := if sessions.isEmpty then microsForDay else []
    if sessions.isEmpty && micros.isEmpty then ⟨none, 0, none⟩
    else
      match resp with
      | .error _ => ⟨none, 1, none⟩
      | .ok content =>
        match decode (stripCodeFences (jsOrDefault content "\x7b\x7d")) with
        | .error _ => ⟨none, 1, none⟩
        | .ok parsed =>
          let daily := buildDaily date aggs dayStart parsed
          ⟨some daily, 1, some daily⟩

/-- The deep-dive cache key `` `${activeSessionId || 'none'}:${start}:${end}` ``. -/
def deepDiveKey (sid : Option String) (start stop : Int) : String :=
  jsOrDefault sid "none" ++ ":" ++ toString start ++ ":" ++ toString stop

/-- Cache lookup, `db.getCachedDeepDive`. -/
def getCachedDeepDive (cache : List (String × String)) (key : String) : Option String :=
  (cache.find? (fun p => p.1 = key)).map (fun p => p.2)

/-- Externally visible outcome of one `generateDeepDive` invocation:
returned analysis text, cache afterwards, completion calls issued. -/
structure DeepDiveOutcome where
  analysis : String
  cache : List (String × String)
  apiCalls : Nat
  deriving DecidableEq, Repr, Inhabited

/-- `generateDeepDive start stop`: serve from cache when the key is present;
otherwise fall back on missing LLM or empty range without caching, or issue
one completion call and cache the result before returning it; a throw is
caught, yields an error message and caches nothing. `events` is the store's
answer to `getRawEvents(start, stop)`. -/
def generateDeepDive (llm : Bool) (sid : Option String)
    (events : List RawEvent) (resp : Except String (Option String))
    (cache : List (String × String)) (start stop : Int) : DeepDiveOutcome :=
  let key := deepDiveKey sid start stop
  match getCachedDeepDive cache key with
  | some a => ⟨a, cache, 0⟩
  | none =>
    if !llm then ⟨"LLM not configured. Cannot generate deep dive.", cache, 0⟩
    else if events.isEmpty then ⟨"No events recorded for this time range.", cache, 0⟩
    else
      match resp with
      | .error e => ⟨"Error generating analysis: " ++ e, cache, 1⟩
      | .ok content =>
        let analysis := jsOrDefault content "Analysis unavailable."
        ⟨analysis, (key, analysis) :: cache, 1⟩

/-- Externally visible outcome of one `generateOnDemandSummary` invocation,
after the forced micro flush: returned text, completion calls beyond the
flush, and session-summary rows written. -/
structure OnDemandOutcome where
  text : String
  apiCalls : Nat
  sessionInserts : Nat
  deriving DecidableEq, Repr, Inhabited

/-- `generateOnDemandSummary` after the forced micro flush: `allMicros` is
the store's answer for today's micro summaries. Zero micros yields the
fixed no-activity text; one yields its summary verbatim; several
synthesize an overview without persisting anything, falling back to the
last micro's text when the client is missing or the call or decode throws. -/
def generateOnDemandSummary (llm : Bool) (allMicros : List MicroSummary)
    (resp : Except String (Option String))
    (decode : String → Except String ParsedSession) : OnDemandOutcome :=
  if allMicros.isEmpty then ⟨"No activity recorded yet.", 0, 0⟩
  else if allMicros.length = 1 then ⟨(allMicros.head?.getD default).summary, 0, 0⟩
  else if !llm then ⟨(allMicros.getLast?.getD default).summary, 0, 0⟩
  else
    match resp with
    | .error _ => ⟨(allMicros.getLast?.getD default).summary, 1, 0⟩
    | .ok content =>
      match decode (stripCodeFences (jsOrDefault content "\x7b\x7d")) with
      | .error _ => ⟨(allMicros.getLast?.getD default).summary, 1, 0⟩
      | .ok parsed =>
        ⟨jsOrDefault parsed.summary (allMicros.getLast?.getD default).summary, 1, 0⟩

/-! ## Demo data shared by concrete witnesses -/

/-- A small event constructor for concrete instances. -/
def demoEv (ch : Channel) (app : Option String) (ts : Int) : RawEvent :=
  { sessionId := "s1", timestamp := ts, channel := ch, appName := app,
    appCategory := none, summaryText := some "text" }

/-- The spec's scenario buffer: three VS Code scene events (with a bare
transcript in between) followed by two Chrome scene events. -/
def demoEvents : List RawEvent :=
  [demoEv .scene_index (some "VS Code") 0,
   demoEv .scene_index (some "VS Code") 120,
   demoEv .transcript none 130,
   demoEv .scene_index (some "VS Code") 240,
   demoEv .scene_index (some "Chrome") 360,
   demoEv .scene_index (some "Chrome") 480]

/-- A concrete stored segment (VS Code, 4 minutes). -/
def demoSeg1 : ActivitySegment :=
  { id := some 1, sessionId := "s1", startTime := 0, endTime := 240,
    primaryApp := some "VS Code", appCategory := some "development",
    action := "coding", project := none, context := none,
    transcriptSnippet := none, eventCount := 4, isIdle := false }

/-- A concrete stored segment (Chrome, 2 minutes). -/
def demoSeg2 : ActivitySegment :=
  { id := some 2, sessionId := "s1", startTime := 360, endTime := 480,
    primaryApp := some "Chrome", appCategory := some "browsing",
    action := "browsing", project := none, context := none,
    transcriptSnippet := none, eventCount := 2, isIdle := false }

/-- Concrete eligible segments for micro-summary witnesses. -/
def demoSegs : List ActivitySegment := [demoSeg1, demoSeg2]

/-- A concrete stored micro summary. -/
def demoMicro1 : MicroSummary :=
  { sessionId := "s1", startTime := 0, endTime := 480,
    summary := "Worked on code", appBreakdown := [("VS Code", 240), ("Chrome", 120)],
    primaryActivity := some "coding", productivityLabel := "productive",
    project := none, segmentIds := [1, 2] }

/-- A second concrete stored micro summary. -/
def demoMicro2 : MicroSummary :=
  { sessionId := "s1", startTime := 480, endTime := 900,
    summary := "Browsed docs", appBreakdown := [("github.com", 300)],
    primaryActivity := some "reading", productivityLabel := "neutral",
    project := none, segmentIds := [3] }

/-- Concrete micro summaries for session-summary witnesses. -/
def demoMicros : List MicroSummary := [demoMicro1, demoMicro2]

/-! ## Grouping infrastructure: `groupByApp` as a loop invariant -/

/-- The events represented by a `(groups, current)` loop state, in order. -/
def flatState (st : List EventGroup × Option EventGroup) : List RawEvent :=
  ((st.1 ++ st.2.toList).map EventGroup.events).flatten

theorem flat_groupStep (st : List EventGroup × Option EventGroup) (e : RawEvent) :
    flatState (groupStep st e) = flatState st ++ [e] := by
  by_cases hb : isBoundary st.2 e = true
  · rcases st with ⟨gs, cur⟩
    cases cur <;> simp [flatState, groupStep, hb]
  · rcases st with ⟨gs, cur⟩
    cases cur <;> simp [flatState, groupStep, hb]

theorem flat_foldl (es : List RawEvent) :
    ∀ st, flatState (es.foldl groupStep st) = flatState st ++ es := by
  induction es with
  | nil => intro st; simp
  | cons e es ih =>
    intro st
    simp only [List.foldl_cons]
    rw [ih (groupStep st e), flat_groupStep]
    simp

/-- The groups produced by `groupByApp` flatten back, in order, to the
input event list. -/
theorem groupByApp_join (events : List RawEvent) :
    ((groupByApp events).map EventGroup.events).flatten = events := by
  have h := flat_foldl events ([], none)
  simpa [groupByApp, flatState] using h

/-- The run-boundary relation between adjacent groups: the next group opens
with a scene/visual/alert event carrying a truthy app name that differs from
the previous group's app name. -/
def boundaryRel (g g' : EventGroup) : Prop :=
  ∀ e ∈ g'.events.head?,
    hasAppInfo e = true ∧ jsTruthy e.appName = true ∧ e.appName ≠ g.appName

theorem boundaryRel_congr {g g' g'' : EventGroup}
    (h : g'.events.head? = g''.events.head?) : boundaryRel g g' ↔ boundaryRel g g'' := by
  unfold boundaryRel
  rw [h]

/-- Invariant of the `groupByApp` loop. -/
structure GoodState (st : List EventGroup × Option EventGroup) : Prop where
  groups_ne : ∀ g ∈ st.1 ++ st.2.toList, g.events ≠ []
  none_nil : st.2 = none → st.1 = []
  head_app : ∀ g ∈ st.1 ++ st.2.toList, ∀ e ∈ g.events.head?, e.appName = g.appName
  tail_app : ∀ g ∈ st.1 ++ st.2.toList, ∀ e ∈ g.events.tail,
    hasAppInfo e = true → jsTruthy e.appName = true → e.appName = g.appName
  chain : List.Chain' boundaryRel (st.1 ++ st.2.toList)

theorem goodState_init : GoodState ([], none) := by
  constructor <;> simp

theorem good_step {st : List EventGroup × Option EventGroup} (e : RawEvent)
    (h : GoodState st) : GoodState (groupStep st e) := by
  rcases st with ⟨gs, cur⟩
  by_cases hb : isBoundary cur e = true
  · cases cur with
    | none =>
      have hnil : gs = [] := h.none_nil rfl
      subst hnil
      refine ⟨?_, ?_, ?_, ?_, ?_⟩ <;> simp [groupStep, hb]
    | some c =>
      have hb' : hasAppInfo e = true ∧ jsTruthy e.appName = true ∧ e.appName ≠ c.appName := by
        have := hb
        simp only [isBoundary, Bool.and_eq_true, decide_eq_true_eq] at this
        exact ⟨this.1.1, this.1.2, this.2⟩
      have hmem : c ∈ gs ++ (some c).toList := by simp
      have hstep : groupStep (gs, some c) e =
          (gs ++ [c], some (EventGroup.mk e.appName e.appCategory [e])) := by
        simp [groupStep, hb]
      rw [hstep]
      have hsplit : ∀ {g : EventGroup},
          g ∈ (gs ++ [c]) ++ (some (EventGroup.mk e.appName e.appCategory [e])).toList →
          g ∈ gs ++ (some c).toList ∨ g = EventGroup.mk e.appName e.appCategory [e] := by
        intro g hg
        simp only [Option.toList_some] at hg ⊢
        rcases List.mem_append.mp hg with hg' | hg'
        · exact Or.inl hg'
        · exact Or.inr (List.mem_singleton.mp hg')
      refine ⟨?_, ?_, ?_, ?_, ?_⟩
      · intro g hg
        rcases hsplit hg with hg' | hg'
        · exact h.groups_ne g hg'
        · subst hg'; simp
      · simp
      · intro g hg e' he'
        rcases hsplit hg with hg' | hg'
        · exact h.head_app g hg' e' he'
        · subst hg'
          simp only [List.head?_cons, Option.mem_def, Option.some.injEq] at he'
          subst he'
          rfl
      · intro g hg e' he'
        rcases hsplit hg with hg' | hg'
        · exact h.tail_app g hg' e' he'
        · subst hg'; simp at he'
      · simp only [Option.toList_some]
        have hch : List.Chain' boundaryRel (gs ++ [c]) := by
          simpa using h.chain
        refine List.Chain'.append hch (List.chain'_singleton _) ?_
        intro x hx y hy
        simp only [List.head?_cons, Option.mem_def, Option.some.injEq] at hy
        subst hy
        have hx' : x = c := by
          rw [List.getLast?_concat] at hx
          simp only [Option.mem_def, Option.some.injEq] at hx
          exact hx.symm
        subst hx'
        intro e' he'
        simp only [List.head?_cons, Option.mem_def, Option.some.injEq] at he'
        subst he'
        exact hb'
  · cases cur with
    | none =>
      have hnil : gs = [] := h.none_nil rfl
      subst hnil
      refine ⟨?_, ?_, ?_, ?_, ?_⟩ <;> simp [groupStep, hb]
    | some c =>
      have hne : c.events ≠ [] := h.groups_ne c (by simp)
      have hb' : hasAppInfo e = true → jsTruthy e.appName = true → e.appName = c.appName := by
        intro h1 h2
        by_contra hne'
        exact hb (by simp [isBoundary, h1, h2, hne'])
      have hhead : (c.events ++ [e]).head? = c.events.head? :=
        List.head?_append_of_ne_nil _ hne
      have hstep : groupStep (gs, some c) e =
          (gs, some { c with events := c.events ++ [e] }) := by
        simp [groupStep, hb]
      rw [hstep]
      have hsplit : ∀ {g : EventGroup},
          g ∈ gs ++ (some { c with events := c.events ++ [e] }).toList →
          g ∈ gs ∨ g = { c with events := c.events ++ [e] } := by
        intro g hg
        simp only [Option.toList_some] at hg
        rcases List.mem_append.mp hg with hg' | hg'
        · exact Or.inl hg'
        · exact Or.inr (List.mem_singleton.mp hg')
      have hmemgs : ∀ {g : EventGroup}, g ∈ gs → g ∈ gs ++ (some c).toList := by
        intro g hg
        exact List.mem_append.mpr (Or.inl hg)
      refine ⟨?_, ?_, ?_, ?_, ?_⟩
      · intro g hg
        rcases hsplit hg with hg' | hg'
        · exact h.groups_ne g (hmemgs hg')
        · subst hg'; simp
      · simp
      · intro g hg e' he'
        rcases hsplit hg with hg' | hg'
        · exact h.head_app g (hmemgs hg') e' he'
        · subst hg'
          simp only [hhead] at he'
          exact h.head_app c (by simp) e' he'
      · intro g hg e' he'
        rcases hsplit hg with hg' | hg'
        · exact h.tail_app g (hmemgs hg') e' he'
        · subst hg'
          rcases hev : c.events with _ | ⟨x, xs⟩
          · exact absurd hev hne
          · simp only [hev, List.cons_append, List.tail_cons, List.mem_append,
              List.mem_singleton] at he'
            rcases he' with he' | he'
            · have := h.tail_app c (by simp) e' (by simp [hev, he'])
              simpa using this
            · subst he'
              simpa using hb'
      · simp only [Option.toList_some]
        have hch : List.Chain' boundaryRel (gs ++ [c]) := by
          simpa using h.chain
        rw [List.chain'_append] at hch ⊢
        refine ⟨hch.1, List.chain'_singleton _, ?_⟩
        intro x hx y hy
        simp only [List.head?_cons, Option.mem_def, Option.some.injEq] at hy
        subst hy
        have hbc : boundaryRel x c := hch.2.2 x hx c (by simp)
        exact (boundaryRel_congr (g := x) hhead.symm).mp hbc

theorem good_foldl (es : List RawEvent) :
    ∀ st, GoodState st → GoodState (es.foldl groupStep st) := by
  induction es with
  | nil => intro st h; simpa using h
  | cons e es ih =>
    intro st h
    simpa using ih (groupStep st e) (good_step e h)

/-- Structural properties of `groupByApp`: groups are non-empty, a group's
`appName` is its opening event's `appName`, interior app-attributed events
agree with the run's app, and adjacent groups satisfy the boundary
relation. -/
theorem groupByApp_props (events : List RawEvent) :
    (∀ g ∈ groupByApp events, g.events ≠ []) ∧
    (∀ g ∈ groupByApp events, ∀ e ∈ g.events.head?, e.appName = g.appName) ∧
    (∀ g ∈ groupByApp events, ∀ e ∈ g.events.tail,
      hasAppInfo e = true → jsTruthy e.appName = true → e.appName = g.appName) ∧
    List.Chain' boundaryRel (groupByApp events) := by
  have h := good_foldl events ([], none) goodState_init
  exact ⟨h.groups_ne, h.head_app, h.tail_app, h.chain⟩

theorem filterMap_if_nonempty {β : Type} (F : EventGroup → β) :
    ∀ (gs : List EventGroup), (∀ g ∈ gs, g.events ≠ []) →
      gs.filterMap (fun g => if g.events.isEmpty then none else some (F g)) = gs.map F := by
  intro gs
  induction gs with
  | nil => intro _; simp
  | cons g gs ih =>
    intro hne
    have hg : g.events ≠ [] := hne g (by simp)
    have : g.events.isEmpty = false := by
      simpa [List.isEmpty_iff] using hg
    simp only [List.filterMap_cons, this, Bool.false_eq_true, if_false, List.map_cons]
    rw [ih (fun g' hg' => hne g' (by simp [hg']))]

theorem flushToSegments_eq_map (sid : String) (idle : Bool) (events : List RawEvent) :
    flushToSegments sid idle events =
      (groupByApp events).map (fun g => (mkSegment sid idle g, g.events)) := by
  unfold flushToSegments
  exact filterMap_if_nonempty _ _ (groupByApp_props events).1

/-- C1: for a non-empty buffer, `flushToSegments` partitions the buffered
events into segments whose contributing event lists concatenate, in order,
back to the original buffer — no event lost or duplicated, order preserved
within and across segments. -/
theorem flush_partitions_buffer (sid : String) (idle : Bool) (events : List RawEvent)
    (_hne : events ≠ []) :
    ((flushToSegments sid idle events).map Prod.snd).flatten = events := by
  rw [flushToSegments_eq_map, List.map_map]
  have hcomp : (Prod.snd ∘ fun g => (mkSegment sid idle g, g.events)) = EventGroup.events :=
    rfl
  rw [hcomp]
  exact groupByApp_join events

/-- Witness for C1: the spec's five-scene demo buffer is recovered exactly
from its flush. -/
theorem flush_partitions_buffer_witness :
    ((flushToSegments "s1" false demoEvents).map Prod.snd).flatten = demoEvents :=
  flush_partitions_buffer "s1" false demoEvents (by decide)

/-- C2: a run boundary is created exactly at scene/visual/alert events that
carry a (truthy) app name differing from the current run's app name: every
non-first group opens with such an event (in particular never a bare
transcript), and no event in the interior of a group carries app info with
a truthy app name different from its group's. -/
theorem groupByApp_boundary_iff (events : List RawEvent) :
    List.Chain'
      (fun g g' => ∀ e ∈ g'.events.head?,
        hasAppInfo e = true ∧ jsTruthy e.appName = true ∧ e.appName ≠ g.appName ∧
          e.channel ≠ Channel.transcript)
      (groupByApp events) ∧
    ∀ g ∈ groupByApp events, ∀ e ∈ g.events.tail,
      hasAppInfo e = true → jsTruthy e.appName = true → e.appName = g.appName := by
  obtain ⟨-, -, htail, hchain⟩ := groupByApp_props events
  refine ⟨?_, htail⟩
  refine hchain.imp ?_
  intro g g' hrel e he
  obtain ⟨h1, h2, h3⟩ := hrel e he
  refine ⟨h1, h2, h3, ?_⟩
  intro hc
  simp [hasAppInfo, hc] at h1

/-- Witness for C2: in the demo buffer, the interior scene event of the
first run agrees with that run's app name. -/
theorem groupByApp_boundary_iff_witness :
    (demoEv .scene_index (some "VS Code") 120).appName =
      ((groupByApp demoEvents).getD 0 default).appName :=
  (groupByApp_boundary_iff demoEvents).2 _ (by decide) _ (by decide) (by decide) (by decide)

theorem chain_cons_head_last_ts :
    ∀ (l : List RawEvent) (a : RawEvent),
      List.Chain' (fun x y => x.timestamp ≤ y.timestamp) (a :: l) →
      a.timestamp ≤ (((a :: l).getLast?).getD default).timestamp := by
  intro l
  induction l with
  | nil => intro a _; simp
  | cons b l ih =>
    intro a hch
    rw [List.chain'_cons] at hch
    have h2 := ih b hch.2
    calc a.timestamp ≤ b.timestamp := hch.1
      _ ≤ _ := by
        simpa [List.getLast?_cons_cons] using h2

theorem head_last_ts (l : List RawEvent)
    (h : List.Chain' (fun x y => x.timestamp ≤ y.timestamp) l) :
    ((l.head?.getD default)).timestamp ≤ ((l.getLast?.getD default)).timestamp := by
  cases l with
  | nil => simp
  | cons a l => simpa using chain_cons_head_last_ts l a h

theorem chain_join_nonempty (gss : List (List RawEvent))
    (hne : ∀ l ∈ gss, l ≠ [])
    (h : List.Chain' (fun a b => a.timestamp ≤ b.timestamp) gss.flatten) :
    (∀ l ∈ gss, (l.head?.getD default).timestamp ≤ (l.getLast?.getD default).timestamp) ∧
    List.Chain'
      (fun l l' => (l.getLast?.getD default).timestamp ≤ (l'.head?.getD default).timestamp)
      gss := by
  induction gss with
  | nil => simp
  | cons g rest ih =>
    rw [List.flatten_cons, List.chain'_append] at h
    obtain ⟨h1, h2, h3⟩ := h
    obtain ⟨ih1, ih2⟩ := ih (fun l hl => hne l (by simp [hl])) h2
    constructor
    · intro l hl
      rcases List.mem_cons.mp hl with hl' | hl'
      · subst hl'; exact head_last_ts l h1
      · exact ih1 l hl'
    · cases rest with
      | nil => simp
      | cons g' rest' =>
        rw [List.chain'_cons]
        refine ⟨?_, ih2⟩
        have hg : g ≠ [] := hne g (by simp)
        have hg' : g' ≠ [] := hne g' (by simp)
        rcases hgl : g.getLast? with _ | x
        · exact absurd (List.getLast?_eq_none_iff.mp hgl) hg
        rcases hgh : g'.head? with _ | y
        · exact absurd (List.head?_eq_none_iff.mp hgh) hg'
        have hy : y ∈ (g' :: rest').flatten.head? := by
          rw [List.flatten_cons, List.head?_append_of_ne_nil _ hg', hgh]
          rfl
        have := h3 x (by rw [hgl]; rfl) y hy
        simpa [hgl, hgh] using this

/-- C7: when the buffered events carry non-decreasing timestamps, every
segment of a flush satisfies `startTime ≤ endTime`, and the flush's
segments are time-ordered and non-overlapping. -/
theorem flush_segments_ordered (sid : String) (idle : Bool) (events : List RawEvent)
    (h : List.Chain' (fun a b => a.timestamp ≤ b.timestamp) events) :
    (∀ p ∈ flushToSegments sid idle events, p.1.startTime ≤ p.1.endTime) ∧
    List.Chain' (fun p q => p.1.endTime ≤ q.1.startTime)
      (flushToSegments sid idle events) := by
  rw [flushToSegments_eq_map]
  have hne := (groupByApp_props events).1
  have hj := chain_join_nonempty ((groupByApp events).map EventGroup.events)
    (by
      intro l hl
      obtain ⟨g, hg, rfl⟩ := List.mem_map.mp hl
      exact hne g hg)
    (by rw [groupByApp_join]; exact h)
  constructor
  · intro p hp
    obtain ⟨g, hg, rfl⟩ := List.mem_map.mp hp
    have := hj.1 g.events (List.mem_map_of_mem _ hg)
    simpa [mkSegment] using this
  · have hc := hj.2
    rw [List.chain'_map] at hc ⊢
    exact hc.imp (fun a b hab => by simpa [mkSegment] using hab)

theorem getD_zero_mem {α : Type} [Inhabited α] (l : List α) (h : l ≠ []) :
    l.getD 0 default ∈ l := by
  cases l with
  | nil => exact absurd rfl h
  | cons a l => simp [List.getD]

theorem demo_chain :
    List.Chain' (fun a b => a.timestamp ≤ b.timestamp) demoEvents := by
  simp only [demoEvents, demoEv, List.chain'_cons, List.chain'_singleton, and_true]
  omega

theorem demo_flush_ne : flushToSegments "s1" false demoEvents ≠ [] := by
  rw [flushToSegments_eq_map]
  have h : groupByApp demoEvents ≠ [] := by decide
  simpa using h

/-- Witness for C7: the first demo-flush segment is well-ordered. -/
theorem flush_segments_ordered_witness :
    ((flushToSegments "s1" false demoEvents).getD 0 default).1.startTime ≤
      ((flushToSegments "s1" false demoEvents).getD 0 default).1.endTime :=
  (flush_segments_ordered "s1" false demoEvents demo_chain).1 _
    (getD_zero_mem _ demo_flush_ne)

/-- The candidates one scene text contributes, in the order the code tries
them: the trimmed IDE-title-bar capture, then the path-segment capture. -/
def projectCandidates (t : String) : List String :=
  ((findTitle t.data).map String.trim).toList ++ (findPath t.data).toList

/-- C8: `inferProject` scans the scene texts in order and returns the first
title-bar or path-segment candidate that passes the validity filter, and no
project when no text yields a valid candidate. -/
theorem inferProject_first_valid (ts : List String) :
    inferProject ts = ((ts.map projectCandidates).flatten).find? isValidProject := by
  induction ts with
  | nil => simp [inferProject]
  | cons t rest ih =>
    simp only [List.map_cons, List.flatten_cons]
    unfold inferProject
    rcases ht : findTitle t.data with _ | raw
    · rcases hp : findPath t.data with _ | p
      · simpa [projectCandidates, ht, hp] using ih
      · by_cases hv : isValidProject p = true
        · simp [projectCandidates, ht, hp, hv, List.find?]
        · simp only [Bool.not_eq_true] at hv
          simpa [projectCandidates, ht, hp, hv, List.find?] using ih
    · by_cases hv1 : isValidProject raw.trim = true
      · simp [projectCandidates, ht, hv1, List.find?]
      · simp only [Bool.not_eq_true] at hv1
        rcases hp : findPath t.data with _ | p
        · simpa [projectCandidates, ht, hp, hv1, List.find?] using ih
        · by_cases hv : isValidProject p = true
          · simp [projectCandidates, ht, hp, hv1, hv, List.find?]
          · simp only [Bool.not_eq_true] at hv
            simpa [projectCandidates, ht, hp, hv1, hv, List.find?] using ih

@[simp]
theorem lookupD_nil (k : String) : lookupD [] k = 0 := rfl

theorem lookupD_bump (m : List (String × Int)) (k : String) (v : Int) (k' : String) :
    lookupD (bumpEntry m k v) k' = lookupD m k' + (if k = k' then v else 0) := by
  induction m with
  | nil =>
    by_cases h : k = k'
    · simp [bumpEntry, lookupD, List.find?, h]
    · simp [bumpEntry, lookupD, List.find?, h]
  | cons p m ih =>
    rcases p with ⟨pk, pv⟩
    by_cases hpk : pk = k
    · subst hpk
      by_cases h : pk = k' <;>
        simp [bumpEntry, lookupD, List.find?, h]
    · by_cases h : pk = k'
      · subst h
        have hks : ¬ k = pk := fun he => hpk he.symm
        simp [bumpEntry, lookupD, List.find?, hpk, hks]
      · simp only [bumpEntry, if_neg hpk]
        simp [lookupD, List.find?, h] at ih ⊢
        exact ih

theorem lookupD_foldl {α : Type} (step : List (String × Int) → α → List (String × Int))
    (h : α → Int) (app : String)
    (hs : ∀ m x, lookupD (step m x) app = lookupD m app + h x) :
    ∀ (l : List α) (m0 : List (String × Int)),
      lookupD (l.foldl step m0) app = lookupD m0 app + (l.map h).sum := by
  intro l
  induction l with
  | nil => intro m0; simp
  | cons x l ih =>
    intro m0
    simp only [List.foldl_cons, List.map_cons, List.sum_cons]
    rw [ih (step m0 x), hs m0 x]
    omega

theorem sum_ite_filter {α : Type} (f : α → String) (g : α → Int) (app : String)
    (l : List α) :
    (l.map (fun x => if f x = app then g x else 0)).sum =
      ((l.filter (fun x => f x = app)).map g).sum := by
  induction l with
  | nil => simp
  | cons x l ih =>
    by_cases h : f x = app <;> simp [List.filter_cons, h, ih]

/-- The micro breakdown reads back, per app, as the sum of `endTime -
startTime` over the contributing segments attributed to that app. -/
theorem microAppBreakdown_lookup (segs : List ActivitySegment) (app : String) :
    lookupD (microAppBreakdown segs) app =
      ((segs.filter (fun s => jsAppOf s = app)).map
        (fun s => s.endTime - s.startTime)).sum := by
  unfold microAppBreakdown
  rw [lookupD_foldl _ (fun s => if jsAppOf s = app then s.endTime - s.startTime else 0) app
    (fun m s => by rw [lookupD_bump])]
  simp [sum_ite_filter]

theorem breakdown_inner_lookup (app : String) (m : List (String × Int))
    (entries : List (String × Int)) :
    lookupD (entries.foldl (fun m2 p => bumpEntry m2 (normalizeApp p.1) p.2) m) app =
      lookupD m app +
        ((entries.filter (fun p => normalizeApp p.1 = app)).map (fun p => p.2)).sum := by
  rw [lookupD_foldl _
    (fun p : String × Int => if normalizeApp p.1 = app then p.2 else 0) app
    (fun m2 p => by rw [lookupD_bump])]
  simp [sum_ite_filter]

/-- The session `appStats` read back, per app, as the sum over all
contributing micros of their breakdown entries whose TLD-normalized name is
that app. -/
theorem sessionAppStats_lookup (micros : List MicroSummary) (app : String) :
    lookupD (sessionAppStats micros) app =
      (micros.map (fun m =>
        ((m.appBreakdown.filter (fun p => normalizeApp p.1 = app)).map
          (fun p => p.2)).sum)).sum := by
  unfold sessionAppStats
  rw [lookupD_foldl _
    (fun mi : MicroSummary =>
      ((mi.appBreakdown.filter (fun p => normalizeApp p.1 = app)).map
        (fun p => p.2)).sum) app
    (fun m mi => breakdown_inner_lookup app m mi.appBreakdown)]
  simp

/-! ## Characterizations of the summarizer operations -/

/-- The completion call or the decode of its output threw. -/
def llmCallFailed {β : Type} (resp : Except String (Option String))
    (decode : String → Except String β) : Prop :=
  match resp with
  | .error _ => True
  | .ok content =>
    ∃ e, decode (stripCodeFences (jsOrDefault content "\x7b\x7d")) = .error e

theorem generateMicroSummary_breakdown (llm : Bool) (sid : Option String)
    (lmt now : Int) (segments : List ActivitySegment)
    (resp : Except String (Option String))
    (decode : String → Except String ParsedMicro) :
    ∀ m, (generateMicroSummary llm sid lmt now segments resp decode).result = some m →
      m.appBreakdown = microAppBreakdown segments := by
  intro m hm
  unfold generateMicroSummary at hm
  cases llm with
  | false => simp at hm
  | true =>
    cases sid with
    | none => simp at hm
    | some s =>
      cases hE : segments.isEmpty with
      | true => simp [hE] at hm
      | false =>
        cases resp with
        | error e => simp [hE] at hm
        | ok content =>
          cases hdec : decode (stripCodeFences (jsOrDefault content "\x7b\x7d")) with
          | error e => simp [hE, hdec] at hm
          | ok parsed =>
            simp only [hE, hdec, Bool.not_true, Bool.false_eq_true, if_false,
              Option.some.injEq] at hm
            subst hm
            rfl

theorem generateSessionSummary_stats (llm : Bool) (sid : Option String)
    (lsst now : Int) (date : String) (micros : List MicroSummary)
    (segsInRange : List ActivitySegment)
    (resp : Except String (Option String))
    (decode : String → Except String ParsedSession) :
    ∀ s, (generateSessionSummary llm sid lsst now date micros segsInRange
        resp decode).result = some s →
      s.appStats = sessionAppStats micros := by
  intro s0 hm
  unfold generateSessionSummary at hm
  cases llm with
  | false => simp at hm
  | true =>
    cases sid with
    | none => simp at hm
    | some sess =>
      cases hE : micros.isEmpty with
      | true => simp [hE] at hm
      | false =>
        cases resp with
        | error e => simp [hE] at hm
        | ok content =>
          cases hdec : decode (stripCodeFences (jsOrDefault content "\x7b\x7d")) with
          | error e => simp [hE, hdec] at hm
          | ok parsed =>
            simp only [hE, hdec, Bool.not_true, Bool.false_eq_true, if_false,
              Option.some.injEq] at hm
            subst hm
            rfl

/-- C3: the per-app breakdown of every generated micro summary sums
`endTime - startTime` over exactly the contributing segments attributed to
each app; it is the same whatever the model returned; and the `appStats` of
every generated session summary sums the contributing micros' breakdown
entries per TLD-normalized app name. -/
theorem summary_breakdowns_deterministic (llm : Bool) (sid : Option String)
    (lmt now : Int) (segments : List ActivitySegment)
    (resp respB : Except String (Option String))
    (decode decodeB : String → Except String ParsedMicro)
    (llmS : Bool) (sidS : Option String) (lsst nowS : Int) (date : String)
    (micros : List MicroSummary) (segsInRange : List ActivitySegment)
    (respS : Except String (Option String))
    (decodeS : String → Except String ParsedSession) :
    (∀ m, (generateMicroSummary llm sid lmt now segments resp decode).result = some m →
      m.appBreakdown = microAppBreakdown segments ∧
      ∀ app, lookupD m.appBreakdown app =
        ((segments.filter (fun s => jsAppOf s = app)).map
          (fun s => s.endTime - s.startTime)).sum) ∧
    (∀ m mB, (generateMicroSummary llm sid lmt now segments resp decode).result = some m →
      (generateMicroSummary llm sid lmt now segments respB decodeB).result = some mB →
      m.appBreakdown = mB.appBreakdown) ∧
    (∀ s, (generateSessionSummary llmS sidS lsst nowS date micros segsInRange
        respS decodeS).result = some s →
      s.appStats = sessionAppStats micros ∧
      ∀ app, lookupD s.appStats app =
        (micros.map (fun m =>
          ((m.appBreakdown.filter (fun p => normalizeApp p.1 = app)).map
            (fun p => p.2)).sum)).sum) := by
  refine ⟨?_, ?_, ?_⟩
  · intro m hm
    have hb := generateMicroSummary_breakdown llm sid lmt now segments resp decode m hm
    exact ⟨hb, fun app => by rw [hb, microAppBreakdown_lookup]⟩
  · intro m mB hm hmB
    rw [generateMicroSummary_breakdown llm sid lmt now segments resp decode m hm,
      generateMicroSummary_breakdown llm sid lmt now segments respB decodeB mB hmB]
  · intro s hs
    have hb := generateSessionSummary_stats llmS sidS lsst nowS date micros segsInRange
      respS decodeS s hs
    exact ⟨hb, fun app => by rw [hb, sessionAppStats_lookup]⟩

/-- Witness for C3: at a concrete successful generation over the demo
segments, the stored breakdown credits VS Code with 240 seconds. -/
theorem summary_breakdowns_deterministic_witness :
    lookupD ((generateMicroSummary true (some "s1") 0 600 demoSegs (.ok (some "x"))
        (fun _ => Except.ok (ParsedMicro.mk (some "Wrote code") none
          (some "productive") none))).result.getD default).appBreakdown "VS Code" = 240 := by
  have h := (summary_breakdowns_deterministic true (some "s1") 0 600 demoSegs
    (.ok (some "x")) (.ok (some "x"))
    (fun _ => Except.ok (ParsedMicro.mk (some "Wrote code") none (some "productive") none))
    (fun _ => Except.ok (ParsedMicro.mk (some "Wrote code") none (some "productive") none))
    true (some "s1") 0 900 "2026-10-12" demoMicros [] (.ok (some "x"))
    (fun _ => Except.ok (ParsedSession.mk (some "s") (some "neutral")))).1
  have h2 := (h ((generateMicroSummary true (some "s1") 0 600 demoSegs (.ok (some "x"))
    (fun _ => Except.ok (ParsedMicro.mk (some "Wrote code") none
      (some "productive") none))).result.getD default) rfl).2 "VS Code"
  exact h2.trans (by decide)

/-- Modelled from the spec: the closed `ProductivityLabel` enumeration
declared in `shared/types` (the declaration itself is not under `src/`). -/
def productivityLabelValues : List String := ["productive", "neutral", "distracted"]

/-- C5 evaluated at a failing input: when the model returns the invalid
non-empty label `"focused"`, both `generateMicroSummary` and
`generateSessionSummary` store it verbatim instead of defaulting to
`"neutral"` — the claimed closed-set guarantee does not hold. -/
theorem invalid_label_stored_verbatim :
    ((generateMicroSummary true (some "s1") 0 600 demoSegs (.ok (some "x"))
        (fun _ => Except.ok (ParsedMicro.mk (some "Wrote code") none
          (some "focused") none))).result.map
      (fun m => m.productivityLabel) = some "focused") ∧
    "focused" ∉ productivityLabelValues ∧
    ((generateSessionSummary true (some "s1") 0 900 "2026-10-12" demoMicros []
        (.ok (some "x"))
        (fun _ => Except.ok (ParsedSession.mk (some "Overview")
          (some "focused")))).result.map
      (fun s => s.productivityLabel) = some "focused") := by
  refine ⟨rfl, by decide, rfl⟩

/-- C6: with empty aggregation input the summarizer is a no-op issuing no
completion call: `generateMicroSummary` on zero eligible segments returns
none with zero calls and no writes, and `generateDailySummary` on a date
with zero sessions and zero micros returns none with zero calls and no
upsert. -/
theorem empty_inputs_are_noops (llm : Bool) (sid : Option String) (lmt now : Int)
    (resp : Except String (Option String)) (decode : String → Except String ParsedMicro)
    (llmD : Bool) (date : String) (aggs : DailyAggregates) (dayStart : Int)
    (respD : Except String (Option String))
    (decodeD : String → Except String ParsedDaily) :
    generateMicroSummary llm sid lmt now [] resp decode =
      ⟨none, 0, [], none, lmt⟩ ∧
    generateDailySummary llmD date [] [] aggs dayStart respD decodeD =
      ⟨none, 0, none⟩ := by
  constructor
  · cases llm with
    | false => rfl
    | true =>
      cases sid with
      | none => rfl
      | some s => rfl
  · cases llmD with
    | false => rfl
    | true => rfl

/-- C4 as stated is violated on the unconfigured-client path: two identical
deep-dive calls return the same fallback text but issue zero (not one)
completion calls and cache nothing. -/
theorem deepdive_unconfigured_counterexample :
    ((generateDeepDive false none [] (.ok none) [] 0 10).analysis =
      (generateDeepDive false none [] (.ok none)
        (generateDeepDive false none [] (.ok none) [] 0 10).cache 0 10).analysis) ∧
    (generateDeepDive false none [] (.ok none) [] 0 10).apiCalls +
      (generateDeepDive false none [] (.ok none)
        (generateDeepDive false none [] (.ok none) [] 0 10).cache 0 10).apiCalls = 0 ∧
    (generateDeepDive false none [] (.ok none) [] 0 10).cache = [] ∧
    (0 : Nat) ≠ 1 := by
  exact ⟨rfl, rfl, rfl, by decide⟩

/-- C4 amended: provided the key is not yet cached, the LLM client is
configured, the range holds at least one raw event and the completion call
succeeds, a second call with the same `(session, start, end)` key returns
the identical cached result, exactly one completion call is issued in
total, and the cache entry — written before the first return — is neither
evicted nor recomputed. -/
theorem deepdive_idempotent_success (sid : Option String)
    (events events2 : List RawEvent) (content : Option String)
    (resp2 : Except String (Option String)) (cache : List (String × String))
    (start stop : Int)
    (hmiss : getCachedDeepDive cache (deepDiveKey sid start stop) = none)
    (hev : events ≠ []) :
    (generateDeepDive true sid events2 resp2
        (generateDeepDive true sid events (.ok content) cache start stop).cache
        start stop).analysis =
      (generateDeepDive true sid events (.ok content) cache start stop).analysis ∧
    (generateDeepDive true sid events (.ok content) cache start stop).apiCalls = 1 ∧
    (generateDeepDive true sid events2 resp2
        (generateDeepDive true sid events (.ok content) cache start stop).cache
        start stop).apiCalls = 0 ∧
    (generateDeepDive true sid events2 resp2
        (generateDeepDive true sid events (.ok content) cache start stop).cache
        start stop).cache =
      (generateDeepDive true sid events (.ok content) cache start stop).cache ∧
    getCachedDeepDive
        (generateDeepDive true sid events (.ok content) cache start stop).cache
        (deepDiveKey sid start stop) =
      some (generateDeepDive true sid events (.ok content) cache start stop).analysis := by
  have hE : events.isEmpty = false := by simpa [List.isEmpty_iff] using hev
  have h1 : generateDeepDive true sid events (.ok content) cache start stop =
      ⟨jsOrDefault content "Analysis unavailable.",
        (deepDiveKey sid start stop, jsOrDefault content "Analysis unavailable.") :: cache,
        1⟩ := by
    unfold generateDeepDive
    simp [hmiss, hE]
  have hhit : getCachedDeepDive
      ((deepDiveKey sid start stop, jsOrDefault content "Analysis unavailable.") :: cache)
      (deepDiveKey sid start stop) = some (jsOrDefault content "Analysis unavailable.") := by
    simp [getCachedDeepDive, List.find?]
  have h2 : generateDeepDive true sid events2 resp2
      ((deepDiveKey sid start stop, jsOrDefault content "Analysis unavailable.") :: cache)
      start stop =
      ⟨jsOrDefault content "Analysis unavailable.",
        (deepDiveKey sid start stop, jsOrDefault content "Analysis unavailable.") :: cache,
        0⟩ := by
    unfold generateDeepDive
    simp [hhit]
  rw [h1, h2]
  exact ⟨rfl, rfl, rfl, rfl, hhit⟩

/-- Witness for the amended C4 at a concrete uncached call. -/
theorem deepdive_idempotent_success_witness :
    (generateDeepDive true (some "s") [demoEv .transcript none 0]
      (.ok (some "analysis")) [] 0 10).apiCalls = 1 :=
  (deepdive_idempotent_success (some "s") [demoEv .transcript none 0] []
    (some "analysis") (.error "x") [] 0 10 rfl (by decide)).2.1

/-- C9: after the forced flush, `generateOnDemandSummary` returns the fixed
no-activity text on zero micros (no further completion call), the single
micro's `summary` verbatim on exactly one (no further completion call),
and the most recent micro's text when several exist but the client is
unavailable or the overview call throws; it never inserts a
`SessionSummary` row. -/
theorem onDemand_summary_paths (llm : Bool) (micros : List MicroSummary)
    (resp : Except String (Option String))
    (decode : String → Except String ParsedSession) :
    (micros = [] → generateOnDemandSummary llm micros resp decode =
      ⟨"No activity recorded yet.", 0, 0⟩) ∧
    (∀ m, micros = [m] →
      generateOnDemandSummary llm micros resp decode = ⟨m.summary, 0, 0⟩) ∧
    (1 < micros.length → llm = false →
      (generateOnDemandSummary llm micros resp decode).text =
        (micros.getLast?.getD default).summary) ∧
    (1 < micros.length → ∀ e, resp = Except.error e →
      (generateOnDemandSummary llm micros resp decode).text =
        (micros.getLast?.getD default).summary) ∧
    (generateOnDemandSummary llm micros resp decode).sessionInserts = 0 := by
  refine ⟨?_, ?_, ?_, ?_, ?_⟩
  · intro h
    subst h
    rfl
  · intro m h
    subst h
    rfl
  · intro hlen hllm
    subst hllm
    have hne : micros.isEmpty = false := by
      cases micros with
      | nil => simp at hlen
      | cons a l => simp
    have hlen1 : ¬ micros.length = 1 := by omega
    unfold generateOnDemandSummary
    simp [hne, hlen1]
  · intro hlen e he
    subst he
    have hne : micros.isEmpty = false := by
      cases micros with
      | nil => simp at hlen
      | cons a l => simp
    have hlen1 : ¬ micros.length = 1 := by omega
    cases llm <;> simp [generateOnDemandSummary, hne, hlen1]
  · unfold generateOnDemandSummary
    repeat' split
    all_goals rfl

/-- Witness for C9: a single-micro day returns that micro's summary. -/
theorem onDemand_summary_paths_witness :
    generateOnDemandSummary true [demoMicro1] (.ok none) (fun _ => .error "x") =
      ⟨demoMicro1.summary, 0, 0⟩ :=
  (onDemand_summary_paths true [demoMicro1] (.ok none)
    (fun _ => .error "x")).2.1 demoMicro1 rfl

theorem generateMicroSummary_failed (llm : Bool) (sid : Option String)
    (lmt now : Int) (segments : List ActivitySegment)
    (resp : Except String (Option String))
    (decode : String → Except String ParsedMicro)
    (hfail : llmCallFailed resp decode) :
    (generateMicroSummary llm sid lmt now segments resp decode).result = none ∧
    (generateMicroSummary llm sid lmt now segments resp decode).insertedMicros = [] ∧
    (generateMicroSummary llm sid lmt now segments resp decode).backfill = none ∧
    (generateMicroSummary llm sid lmt now segments resp decode).lastMicroTimeAfter = lmt := by
  cases llm with
  | false => exact ⟨rfl, rfl, rfl, rfl⟩
  | true =>
    cases sid with
    | none => exact ⟨rfl, rfl, rfl, rfl⟩
    | some s =>
      cases hE : segments.isEmpty with
      | true => simp [generateMicroSummary, hE]
      | false =>
        cases resp with
        | error e => simp [generateMicroSummary, hE]
        | ok content =>
          have hfail' : ∃ e,
              decode (stripCodeFences (jsOrDefault content "\x7b\x7d")) =
                Except.error e := hfail
          obtain ⟨e, he⟩ := hfail'
          simp [generateMicroSummary, hE, he]

theorem generateSessionSummary_failed (llm : Bool) (sid : Option String)
    (lsst now : Int) (date : String) (micros : List MicroSummary)
    (segsInRange : List ActivitySegment)
    (resp : Except String (Option String))
    (decode : String → Except String ParsedSession)
    (hfail : llmCallFailed resp decode) :
    (generateSessionSummary llm sid lsst now date micros segsInRange
      resp decode).result = none ∧
    (generateSessionSummary llm sid lsst now date micros segsInRange
      resp decode).insertedSessions = [] ∧
    (generateSessionSummary llm sid lsst now date micros segsInRange
      resp decode).lastSessionSummaryTimeAfter = lsst := by
  cases llm with
  | false => exact ⟨rfl, rfl, rfl⟩
  | true =>
    cases sid with
    | none => exact ⟨rfl, rfl, rfl⟩
    | some s =>
      cases hE : micros.isEmpty with
      | true => simp [generateSessionSummary, hE]
      | false =>
        cases resp with
        | error e => simp [generateSessionSummary, hE]
        | ok content =>
          have hfail' : ∃ e,
              decode (stripCodeFences (jsOrDefault content "\x7b\x7d")) =
                Except.error e := hfail
          obtain ⟨e, he⟩ := hfail'
          simp [generateSessionSummary, hE, he]

theorem generateDailySummary_failed (llm : Bool) (date : String)
    (sessions : List SessionSummary) (microsForDay : List MicroSummary)
    (aggs : DailyAggregates) (dayStart : Int)
    (resp : Except String (Option String))
    (decode : String → Except String ParsedDaily)
    (hfail : llmCallFailed resp decode) :
    (generateDailySummary llm date sessions microsForDay aggs dayStart
      resp decode).result = none ∧
    (generateDailySummary llm date sessions microsForDay aggs dayStart
      resp decode).upserted = none := by
  cases llm with
  | false => exact ⟨rfl, rfl⟩
  | true =>
    cases hs : sessions.isEmpty with
    | true =>
      cases hmics : microsForDay.isEmpty with
      | true => simp [generateDailySummary, hs, hmics]
      | false =>
        cases resp with
        | error e => simp [generateDailySummary, hs, hmics]
        | ok content =>
          have hfail' : ∃ e,
              decode (stripCodeFences (jsOrDefault content "\x7b\x7d")) =
                Except.error e := hfail
          obtain ⟨e, he⟩ := hfail'
          simp [generateDailySummary, hs, hmics, he]
    | false =>
      cases resp with
      | error e => simp [generateDailySummary, hs]
      | ok content =>
        have hfail' : ∃ e,
            decode (stripCodeFences (jsOrDefault content "\x7b\x7d")) =
              Except.error e := hfail
        obtain ⟨e, he⟩ := hfail'
        simp [generateDailySummary, hs, he]

theorem generateDeepDive_error_cache (llm : Bool) (sid : Option String)
    (events : List RawEvent) (e : String) (cache : List (String × String))
    (start stop : Int) :
    (generateDeepDive llm sid events (.error e) cache start stop).cache = cache := by
  unfold generateDeepDive
  cases hc : getCachedDeepDive cache (deepDiveKey sid start stop) with
  | some a => simp [hc]
  | none => cases llm <;> cases hE : events.isEmpty <;> simp [hc, hE]

/-- C10: if the completion call or the JSON decode throws, the invocation
leaves persistent state unchanged: no micro/session row is inserted, no
daily row is upserted, no deep-dive cache entry is written, no segment
project backfill happens, and both watermarks keep their prior values. -/
theorem failed_calls_leave_state_unchanged
    (llm : Bool) (sid : Option String) (lmt now : Int)
    (segments : List ActivitySegment) (resp : Except String (Option String))
    (decode : String → Except String ParsedMicro)
    (llmS : Bool) (sidS : Option String) (lsst nowS : Int) (dateS : String)
    (micros : List MicroSummary) (segsInRange : List ActivitySegment)
    (respS : Except String (Option String))
    (decodeS : String → Except String ParsedSession)
    (llmD : Bool) (dateD : String) (sessions : List SessionSummary)
    (microsD : List MicroSummary) (aggs : DailyAggregates) (dayStart : Int)
    (respD : Except String (Option String))
    (decodeD : String → Except String ParsedDaily)
    (llmDD : Bool) (sidDD : Option String) (eventsDD : List RawEvent)
    (eDD : String) (cacheDD : List (String × String)) (startDD stopDD : Int)
    (hfail : llmCallFailed resp decode) (hfailS : llmCallFailed respS decodeS)
    (hfailD : llmCallFailed respD decodeD) :
    ((generateMicroSummary llm sid lmt now segments resp decode).result = none ∧
      (generateMicroSummary llm sid lmt now segments resp decode).insertedMicros = [] ∧
      (generateMicroSummary llm sid lmt now segments resp decode).backfill = none ∧
      (generateMicroSummary llm sid lmt now segments resp decode).lastMicroTimeAfter = lmt) ∧
    ((generateSessionSummary llmS sidS lsst nowS dateS micros segsInRange
        respS decodeS).result = none ∧
      (generateSessionSummary llmS sidS lsst nowS dateS micros segsInRange
        respS decodeS).insertedSessions = [] ∧
      (generateSessionSummary llmS sidS lsst nowS dateS micros segsInRange
        respS decodeS).lastSessionSummaryTimeAfter = lsst) ∧
    ((generateDailySummary llmD dateD sessions microsD aggs dayStart
        respD decodeD).result = none ∧
      (generateDailySummary llmD dateD sessions microsD aggs dayStart
        respD decodeD).upserted = none) ∧
    (generateDeepDive llmDD sidDD eventsDD (.error eDD) cacheDD
      startDD stopDD).cache = cacheDD :=
  ⟨generateMicroSummary_failed llm sid lmt now segments resp decode hfail,
   generateSessionSummary_failed llmS sidS lsst nowS dateS micros segsInRange
     respS decodeS hfailS,
   generateDailySummary_failed llmD dateD sessions microsD aggs dayStart
     respD decodeD hfailD,
   generateDeepDive_error_cache llmDD sidDD eventsDD eDD cacheDD startDD stopDD⟩

/-- Witness for C10: a throwing completion call leaves the micro watermark
at its prior value. -/
theorem failed_calls_leave_state_unchanged_witness :
    (generateMicroSummary true (some "s1") 5 700 demoSegs (.error "boom")
      (fun _ => Except.ok (ParsedMicro.mk none none none none))).lastMicroTimeAfter = 5 :=
  (failed_calls_leave_state_unchanged true (some "s1") 5 700 demoSegs (.error "boom")
    (fun _ => Except.ok (ParsedMicro.mk none none none none))
    true (some "s1") 6 800 "2026-10-12" demoMicros [] (.error "boom")
    (fun _ => Except.ok (ParsedSession.mk none none))
    true "2026-10-12" [] [] ⟨[], [], 0, 0, 0, 0⟩ 0 (.error "boom")
    (fun _ => Except.ok (ParsedDaily.mk none none none none none))
    true (some "s1") [] "boom" [] 0 10
    trivial trivial trivial).1.2.2.2

end Focusd
